import Mathlib

/-!
# Verification of the `BMPImageEditor` codec (src/BMPImageEditor.cpp)

A shallow embedding of the C++ class `BMPImageEditor`: the 24-bit BMP
decoder (`read`), the encoder (`save`) and the pixel mutation
(`drawCross`), together with theorems settling the specification claims.

Bytes are modelled as `Nat` values below 256; a file is a `List Nat`.
Machine arithmetic that can overflow in the C++ source (the two stride
computations are performed in `uint32_t`) is modelled with explicit
`% 2^32` reductions.  The `std::ifstream` is modelled by `ByteStream`:
the whole file content, a read position and the stream's fail flag
(`istream::read` of n bytes extracts what is available and raises the
fail flag when fewer than n bytes remain; once the flag is up every
further read extracts nothing, and `seekg` becomes a no-op).
-/

set_option maxHeartbeats 1000000

namespace BMPEditor

/-- Little-endian 16-bit read at offset `i` of a byte list (out-of-range
bytes read as 0, matching value-initialised C++ memory in the model). -/
def readU16 (b : List Nat) (i : Nat) : Nat :=
  b.getD i 0 + 256 * b.getD (i + 1) 0

/-- Little-endian 32-bit read at offset `i` of a byte list. -/
def readU32 (b : List Nat) (i : Nat) : Nat :=
  b.getD i 0 + 256 * b.getD (i + 1) 0 + 65536 * b.getD (i + 2) 0 +
    16777216 * b.getD (i + 3) 0

/-- Little-endian 16-bit serialisation. -/
def writeU16 (v : Nat) : List Nat :=
  [v % 256, v / 256 % 256]

/-- Little-endian 32-bit serialisation. -/
def writeU32 (v : Nat) : List Nat :=
  [v % 256, v / 256 % 256, v / 65536 % 256, v / 16777216 % 256]

/-- The 14-byte BMP file header (`struct BMPFileHeader`, packed). -/
structure BMPFileHeader where
  type_of_file : Nat
  size_of_file : Nat
  reserved_1 : Nat
  reserved_2 : Nat
  offset_to_pixel_data : Nat
deriving Repr, DecidableEq

/-- The 40-byte BMP info block (`struct BMPFileInfoBlock`, packed).
`horizontal_resolution`/`vertical_resolution` are `int32_t` in the
source but are pure pass-through; they are modelled by their raw
unsigned 32-bit byte value. -/
structure BMPFileInfoBlock where
  size_of_info_block : Nat
  width : Nat
  height : Nat
  count_of_planes : Nat
  color_depth_in_bits : Nat
  type_of_compression : Nat
  size_of_image : Nat
  horizontal_resolution : Nat
  vertical_resolution : Nat
  count_of_colors : Nat
  count_of_important_colors : Nat
deriving Repr, DecidableEq

/-- Reinterpreting 14 raw bytes as a `BMPFileHeader`
(little-endian fields, as on x86 with `#pragma pack(1)`). -/
def parseHeader (b : List Nat) : BMPFileHeader where
  type_of_file := readU16 b 0
  size_of_file := readU32 b 2
  reserved_1 := readU16 b 6
  reserved_2 := readU16 b 8
  offset_to_pixel_data := readU32 b 10

/-- The 14 raw bytes underlying a `BMPFileHeader` value. -/
def serializeHeader (h : BMPFileHeader) : List Nat :=
  writeU16 h.type_of_file ++ writeU32 h.size_of_file ++
    writeU16 h.reserved_1 ++ writeU16 h.reserved_2 ++
    writeU32 h.offset_to_pixel_data

/-- Reinterpreting 40 raw bytes as a `BMPFileInfoBlock`. -/
def parseInfoBlock (b : List Nat) : BMPFileInfoBlock where
  size_of_info_block := readU32 b 0
  width := readU32 b 4
  height := readU32 b 8
  count_of_planes := readU16 b 12
  color_depth_in_bits := readU16 b 14
  type_of_compression := readU32 b 16
  size_of_image := readU32 b 20
  horizontal_resolution := readU32 b 24
  vertical_resolution := readU32 b 28
  count_of_colors := readU32 b 32
  count_of_important_colors := readU32 b 36

/-- The 40 raw bytes underlying a `BMPFileInfoBlock` value. -/
def serializeInfoBlock (ib : BMPFileInfoBlock) : List Nat :=
  writeU32 ib.size_of_info_block ++ writeU32 ib.width ++
    writeU32 ib.height ++ writeU16 ib.count_of_planes ++
    writeU16 ib.color_depth_in_bits ++ writeU32 ib.type_of_compression ++
    writeU32 ib.size_of_image ++ writeU32 ib.horizontal_resolution ++
    writeU32 ib.vertical_resolution ++ writeU32 ib.count_of_colors ++
    writeU32 ib.count_of_important_colors

/-- Model of the `std::ifstream`: full file content, current read
position and the stream fail flag. -/
structure ByteStream where
  data : List Nat
  pos : Nat
  failed : Bool
deriving Repr, DecidableEq

/-- `istream::read(&c, 1)`: returns the byte read (or `cur`, the
variable's previous value, when the stream is failed or exhausted)
and the updated stream. -/
def ByteStream.readByte (s : ByteStream) (cur : Nat) : Nat × ByteStream :=
  if s.failed then (cur, s)
  else if s.pos < s.data.length then
    (s.data.getD s.pos 0, { s with pos := s.pos + 1 })
  else (cur, { s with failed := true })

/-- `istream::read(buf, n)`: extracts the available bytes, raising the
fail flag when fewer than `n` remain. -/
def ByteStream.readN (s : ByteStream) (n : Nat) : List Nat × ByteStream :=
  if s.failed then ([], s)
  else if s.pos + n ≤ s.data.length then
    ((s.data.drop s.pos).take n, { s with pos := s.pos + n })
  else (s.data.drop s.pos, { s with pos := s.data.length, failed := true })

/-- `istream::seekg(p, std::ios::beg)` (no-op on a failed stream). -/
def ByteStream.seekAbs (s : ByteStream) (p : Nat) : ByteStream :=
  if s.failed then s else { s with pos := p }

/-- `istream::seekg(k, std::ios::cur)` with `k ≥ 0`. -/
def ByteStream.seekCur (s : ByteStream) (k : Nat) : ByteStream :=
  if s.failed then s else { s with pos := s.pos + k }

/-- `istream::read` into a packed struct overwrites only the bytes that
were actually extracted; the remaining struct bytes keep their previous
value. -/
def overlayBytes (newB oldB : List Nat) : List Nat :=
  newB ++ oldB.drop newB.length

/-- The observable state of a `BMPImageEditor` object. -/
structure EditorState where
  file_header : BMPFileHeader
  info_block : BMPFileInfoBlock
  pixels : List (List Nat)
  fileWasRead : Bool
deriving Repr, DecidableEq

/-- A freshly constructed `BMPImageEditor`.  In C++ the two header
structs are default-initialised to indeterminate bytes; the model fixes
them to zero (no claim depends on their initial contents). -/
def initState : EditorState where
  file_header := ⟨0, 0, 0, 0, 0⟩
  info_block := ⟨0, 0, 0, 0, 0, 0, 0, 0, 0, 0, 0⟩
  pixels := []
  fileWasRead := false

/-- The distinct `std::runtime_error` messages thrown by the class. -/
inductive BMPError where
  /-- "Oops! An error occurred while reading the file." -/
  | readFailure
  /-- "Error! The specified file is not of the BMP type." -/
  | notBmpFile
  /-- "Error! This class only works with images with a color depth of 24 bits." -/
  | badColorDepth
  /-- "Error! First you need to read the data from the file." -/
  | fileNotRead
deriving Repr, DecidableEq

/-- `pixels.resize(h, std::vector<uint32_t>(w))`: truncates to `h` rows,
or appends zero-filled width-`w` rows; retained rows are untouched. -/
def resizeGrid (g : List (List Nat)) (h w : Nat) : List (List Nat) :=
  if h ≤ g.length then g.take h
  else g ++ List.replicate (h - g.length) (List.replicate w 0)

/-- The `uint32_t row_size = (width * bytes_per_pixel + 3) & (~3)`
computation of `read` (unsigned 32-bit arithmetic; `~3` converts to
`0xFFFFFFFC`). -/
def decodeRowSize (w bpp : Nat) : Nat :=
  Nat.land ((w * bpp + 3) % 4294967296) 4294967292

/-- The `int32_t row_stride = ((width * color_depth_in_bits + 31) / 32) * 4`
computation of `save` (unsigned 32-bit arithmetic before the division). -/
def encodeRowStride (w depth : Nat) : Nat :=
  (w * depth + 31) % 4294967296 / 32 * 4

/-- The inner pixel loop of `read`: reads `cnt` pixels as
blue/green/red byte triples, packing `(blue << 16) | (green << 8) | red`
into `row` at indices `x`, `x+1`, …. -/
def readRowLoop (row : List Nat) (x cnt : Nat) (s : ByteStream) :
    List Nat × ByteStream :=
  match cnt with
  | 0 => (row, s)
  | cnt + 1 =>
    let (blue, s1) := s.readByte 0
    let (green, s2) := s1.readByte 0
    let (red, s3) := s2.readByte 0
    let color := blue <<< 16 ||| green <<< 8 ||| red
    readRowLoop (row.set x color) (x + 1) cnt s3

/-- The outer row loop of `read` (`for (y = 0; y < height; ++y)`):
iteration `y` stores the row it reads at grid index `height - y - 1` and
then skips the alignment padding. -/
def readRowsLoop (grid : List (List Nat)) (y cnt h w rowSize bpp : Nat)
    (s : ByteStream) : List (List Nat) × ByteStream :=
  match cnt with
  | 0 => (grid, s)
  | cnt + 1 =>
    let rowIndex := h - y - 1
    let (row, s1) := readRowLoop (grid.getD rowIndex []) 0 w s
    let grid1 := grid.set rowIndex row
    let padding := rowSize - w * bpp
    let s2 := if 0 < padding then s1.seekCur padding else s1
    readRowsLoop grid1 (y + 1) cnt h w rowSize bpp s2

/-- `BMPImageEditor::read`, as a function from the object's prior state
and the file's bytes to the state after the call together with the
exception thrown, if any.  The C++ method mutates the member structs in
place before its validity checks, so on failure the partially updated
state is returned alongside the error. -/
def read (st : EditorState) (input : List Nat) :
    EditorState × Option BMPError :=
  let s0 : ByteStream := ⟨input, 0, false⟩
  let (hb, s1) := s0.readN 14
  let fh := parseHeader (overlayBytes hb (serializeHeader st.file_header))
  let st1 := { st with file_header := fh }
  if s1.failed then (st1, some .readFailure)
  else
    let (ib, s2) := s1.readN 40
    let info := parseInfoBlock (overlayBytes ib (serializeInfoBlock st.info_block))
    let st2 := { st1 with info_block := info }
    if s2.failed then (st2, some .readFailure)
    else if fh.type_of_file ≠ 0x4D42 then (st2, some .notBmpFile)
    else if info.color_depth_in_bits ≠ 24 then (st2, some .badColorDepth)
    else
      let s3 := s2.seekAbs fh.offset_to_pixel_data
      let bytesPerPixel := info.color_depth_in_bits / 8
      let rowSize := decodeRowSize info.width bytesPerPixel
      let grid0 := resizeGrid st2.pixels info.height info.width
      let (grid, _) := readRowsLoop grid0 0 info.height info.height
        info.width rowSize bytesPerPixel s3
      ({ st2 with pixels := grid, fileWasRead := true }, none)

/-- The loop of `drawCross`: for `i` from the current index up through
`min(height, width) - 1`, assigns `pixels[i][i]` and
`pixels[i][width - i - 1]`. -/
def drawLoop (g : List (List Nat)) (color w i cnt : Nat) :
    List (List Nat) :=
  match cnt with
  | 0 => g
  | cnt + 1 =>
    let row := (g.getD i []).set i color |>.set (w - i - 1) color
    drawLoop (g.set i row) color w (i + 1) cnt

/-- `BMPImageEditor::drawCross(blue, green, red)`. -/
def drawCross (st : EditorState) (blue green red : Nat) :
    EditorState × Option BMPError :=
  if ¬ st.fileWasRead then (st, some .fileNotRead)
  else
    let color := blue <<< 16 ||| green <<< 8 ||| red
    let n := min st.info_block.height st.info_block.width
    ({ st with pixels := drawLoop st.pixels color st.info_block.width 0 n },
      none)

/-- One iteration block of `save`'s inner pixel loop: the three bytes
pushed for pixel `x` of a row (`(p & (255<<16))>>16`, `(p & (255<<8))>>8`,
`p & 255`). -/
def pixelBytes (p : Nat) : List Nat :=
  [(p &&& 255 <<< 16) >>> 16, (p &&& 255 <<< 8) >>> 8, p &&& 255]

/-- The inner column loop of `save`: the bytes accumulated into
`row_data` for pixels `x`, `x+1`, …, `x+cnt-1` of `row`. -/
def saveRowData (row : List Nat) (x cnt : Nat) : List Nat :=
  match cnt with
  | 0 => []
  | cnt + 1 => pixelBytes (row.getD x 0) ++ saveRowData row (x + 1) cnt

/-- One full row written by `save`: the pixel bytes, then zero padding
until the row is `rowStride` bytes long (the `while` loop; no padding is
added when the row is already at least that long). -/
def saveRow (row : List Nat) (w rowStride : Nat) : List Nat :=
  saveRowData row 0 w ++ List.replicate (rowStride - 3 * w) 0

/-- The outer row loop of `save` (`for (y = height - 1; y >= 0; --y)`):
`saveRowsLoop pixels w rowStride h` emits grid rows `h-1`, `h-2`, …, `0`. -/
def saveRowsLoop (pixels : List (List Nat)) (w rowStride : Nat) :
    Nat → List Nat
  | 0 => []
  | y + 1 => saveRow (pixels.getD y []) w rowStride ++
      saveRowsLoop pixels w rowStride y

/-- `BMPImageEditor::save`, as a function from the object's state to the
bytes written to the output file.  The method performs no precondition
check and never throws: it writes the two header structs verbatim and
then the pixel rows bottom-up. -/
def save (st : EditorState) : List Nat :=
  let rowStride := encodeRowStride st.info_block.width
    st.info_block.color_depth_in_bits
  serializeHeader st.file_header ++ serializeInfoBlock st.info_block ++
    saveRowsLoop st.pixels st.info_block.width rowStride
      st.info_block.height

/-- The packed colour value `read` builds from the three pixel bytes at
file offset `p`. -/
def pixAt (data : List Nat) (p : Nat) : Nat :=
  data.getD p 0 <<< 16 ||| data.getD (p + 1) 0 <<< 8 ||| data.getD (p + 2) 0


/-- The parsed 14-byte header of a byte stream. -/
def hdrOf (input : List Nat) : BMPFileHeader :=
  parseHeader (input.take 14)

/-- The parsed 40-byte info block of a byte stream. -/
def infoOf (input : List Nat) : BMPFileInfoBlock :=
  parseInfoBlock ((input.drop 14).take 40)

/-- A well-formed uncompressed 24-bit BMP byte stream, per the on-disk
format: all values are bytes, both headers are present, the magic is
"BM" (little-endian `0x4D42`), the depth is 24, the compression field is
0, the declared pixel region (height rows of `decodeRowSize` bytes at
the declared offset) lies inside the file, and every alignment padding
byte is 0.  The dimension bounds keep the C++ `int` loop counters and
the 32-bit decoder stride inside their defined range. -/
def wfBMP (input : List Nat) : Prop :=
  54 ≤ input.length ∧
  (∀ b ∈ input, b < 256) ∧
  (hdrOf input).type_of_file = 19778 ∧
  (infoOf input).color_depth_in_bits = 24 ∧
  (infoOf input).type_of_compression = 0 ∧
  (infoOf input).width < 1073741824 ∧
  (infoOf input).height < 2147483648 ∧
  (hdrOf input).offset_to_pixel_data +
    (infoOf input).height * decodeRowSize (infoOf input).width 3 ≤
    input.length ∧
  (∀ d, d < (infoOf input).height → ∀ j, j < decodeRowSize (infoOf input).width 3 →
    3 * (infoOf input).width ≤ j →
    input.getD ((hdrOf input).offset_to_pixel_data +
      d * decodeRowSize (infoOf input).width 3 + j) 0 = 0)

instance (input : List Nat) : Decidable (wfBMP input) := by
  unfold wfBMP
  infer_instance


/-! ## Concrete example inputs -/

/-- A well-formed 2-by-2 24-bit BMP: 54 header bytes (offset 54, width 2,
height 2, depth 24, no compression) and two 8-byte disk rows (6 pixel
bytes plus 2 zero padding bytes each).  Disk row 0 (stored first) is the
bottom displayed row. -/
def ex2x2 : List Nat :=
  [66, 77, 70, 0, 0, 0, 0, 0, 0, 0, 54, 0, 0, 0,
   40, 0, 0, 0, 2, 0, 0, 0, 2, 0, 0, 0, 1, 0, 24, 0, 0, 0, 0, 0,
   0, 0, 0, 0, 0, 0, 0, 0, 0, 0, 0, 0, 0, 0, 0, 0, 0, 0, 0, 0,
   1, 2, 3, 4, 5, 6, 0, 0,
   7, 8, 9, 10, 11, 12, 0, 0]

/-- A valid 54-byte header for a 1-by-1 24-bit BMP (offset 54), with the
whole 4-byte pixel row missing: the file ends right after the headers. -/
def exTruncated : List Nat :=
  [66, 77, 58, 0, 0, 0, 0, 0, 0, 0, 54, 0, 0, 0,
   40, 0, 0, 0, 1, 0, 0, 0, 1, 0, 0, 0, 1, 0, 24, 0, 0, 0, 0, 0,
   0, 0, 0, 0, 0, 0, 0, 0, 0, 0, 0, 0, 0, 0, 0, 0, 0, 0, 0, 0]

/-- A complete 1-by-1 24-bit BMP (blue 10, green 20, red 30). -/
def exTiny : List Nat :=
  exTruncated ++ [10, 20, 30, 0]

/-- A 1-by-1 image identical to `exTiny` except that its
`type_of_compression` field (bytes 30-33) is 1. -/
def exCompressed : List Nat :=
  [66, 77, 58, 0, 0, 0, 0, 0, 0, 0, 54, 0, 0, 0,
   40, 0, 0, 0, 1, 0, 0, 0, 1, 0, 0, 0, 1, 0, 24, 0, 1, 0, 0, 0,
   0, 0, 0, 0, 0, 0, 0, 0, 0, 0, 0, 0, 0, 0, 0, 0, 0, 0, 0, 0,
   10, 20, 30, 0]

/-- 54 bytes whose first two bytes are not "BM" and whose width field
says 7: used to observe what a failing decode leaves behind. -/
def exBadMagic : List Nat :=
  [0, 0, 0, 0, 0, 0, 0, 0, 0, 0, 54, 0, 0, 0,
   40, 0, 0, 0, 7, 0, 0, 0, 1, 0, 0, 0, 1, 0, 24, 0, 0, 0, 0, 0,
   0, 0, 0, 0, 0, 0, 0, 0, 0, 0, 0, 0, 0, 0, 0, 0, 0, 0, 0, 0]

/-- A loaded 2-by-2 editor state with distinct pixel values. -/
def exState2x2 : EditorState :=
  ⟨⟨19778, 70, 0, 0, 54⟩, ⟨40, 2, 2, 1, 24, 0, 0, 0, 0, 0, 0⟩,
    [[1, 2], [3, 4]], true⟩

/-- Header of a width-178956970, height-1 image.  The width is the
smallest at which `save`'s 32-bit stride computation overflows:
178956970 * 24 + 31 = 2^32 + 15, so the encoder's stride is 0 while the
decoder's stride is 536870912 (3 * width rounded up to 4, padding 2). -/
def exOverflowHeader : List Nat :=
  [66, 77, 0, 0, 0, 0, 0, 0, 0, 0, 54, 0, 0, 0,
   40, 0, 0, 0, 170, 170, 170, 10, 1, 0, 0, 0, 1, 0, 24, 0, 0, 0, 0, 0,
   0, 0, 0, 0, 0, 0, 0, 0, 0, 0, 0, 0, 0, 0, 0, 0, 0, 0, 0, 0]

/-- The full width-178956970 image: all 536870912 pixel-section bytes
(536870910 pixel bytes and 2 padding bytes) are zero. -/
def exOverflow : List Nat :=
  exOverflowHeader ++ List.replicate 536870912 0


/-! ## List access helpers -/

theorem getD_set {α : Type} (l : List α) (i j : Nat) (a d : α) :
    (l.set i a).getD j d = if i = j ∧ i < l.length then a else l.getD j d := by
  induction l generalizing i j with
  | nil => simp
  | cons x xs ih =>
    cases i with
    | zero => cases j <;> simp
    | succ i =>
      cases j with
      | zero => simp
      | succ j => simpa [Nat.succ_lt_succ_iff] using ih i j

theorem getD_take {α : Type} (l : List α) (n i : Nat) (d : α) :
    (l.take n).getD i d = if i < n then l.getD i d else d := by
  induction l generalizing n i with
  | nil => simp [List.getD]
  | cons x xs ih =>
    cases n with
    | zero => simp [List.getD]
    | succ n =>
      cases i with
      | zero => simp
      | succ i =>
        simp only [List.take_succ_cons, List.getD_cons_succ, ih n i,
          Nat.succ_lt_succ_iff]

theorem getD_drop {α : Type} (l : List α) (n i : Nat) (d : α) :
    (l.drop n).getD i d = l.getD (n + i) d := by
  induction l generalizing n with
  | nil => simp
  | cons x xs ih =>
    cases n with
    | zero => simp
    | succ n => simp [Nat.succ_add, ih n]

theorem getD_replicate {α : Type} (n i : Nat) (a d : α) :
    (List.replicate n a).getD i d = if i < n then a else d := by
  induction n generalizing i with
  | zero => simp [List.getD]
  | succ n ih =>
    cases i with
    | zero => simp [List.replicate]
    | succ i => simpa [List.replicate, Nat.succ_lt_succ_iff] using ih i

theorem getD_lt_of_forall_lt (l : List Nat) (i c : Nat) (hc : 0 < c)
    (h : ∀ b ∈ l, b < c) : l.getD i 0 < c := by
  rcases Nat.lt_or_ge i l.length with hi | hi
  · rw [List.getD_eq_getElem?_getD, List.getElem?_eq_getElem hi]
    exact h _ (List.getElem_mem hi)
  · rw [List.getD_eq_getElem?_getD, List.getElem?_eq_none (by simpa using hi)]
    simpa using hc

/-! ## Bit-level helpers: the pack/unpack arithmetic of the codec -/

theorem lor_eq_add (a b k : Nat) (ha : 2 ^ k ∣ a) (hb : b < 2 ^ k) :
    a ||| b = a + b := by
  rcases ha with ⟨c, hc⟩
  subst hc
  apply Nat.eq_of_testBit_eq
  intro j
  rw [Nat.testBit_lor, Nat.testBit_mul_pow_two_add c hb j]
  have h0 : (2 ^ k * c).testBit j = (2 ^ k * c + 0).testBit j := by simp
  rw [h0, Nat.testBit_mul_pow_two_add c (Nat.pos_pow_of_pos k (by norm_num)) j]
  by_cases h : j < k
  · have : b.testBit j || false = b.testBit j := by simp
    simp [h]
  · have hbj : b.testBit j = false :=
      Nat.testBit_lt_two_pow (lt_of_lt_of_le hb (Nat.pow_le_pow_right (by norm_num) (Nat.le_of_not_lt h)))
    simp [h, hbj]

theorem shiftLeft_eq_mul (a k : Nat) : a <<< k = a * 2 ^ k :=
  Nat.shiftLeft_eq a k

theorem packColor_eq_add (b g r : Nat) (hg : g < 256) (hr : r < 256) :
    b <<< 16 ||| g <<< 8 ||| r = b * 65536 + g * 256 + r := by
  have h1 : b <<< 16 ||| g <<< 8 = b * 65536 + g * 256 := by
    rw [shiftLeft_eq_mul, shiftLeft_eq_mul]
    have hd : (2 : Nat) ^ 16 ∣ b * 2 ^ 16 := ⟨b, Nat.mul_comm b _⟩
    calc b * 2 ^ 16 ||| g * 2 ^ 8 = b * 2 ^ 16 + g * 2 ^ 8 :=
          lor_eq_add _ _ 16 hd (by omega)
      _ = b * 65536 + g * 256 := by norm_num
  rw [h1]
  refine lor_eq_add _ _ 8 ⟨b * 256 + g, ?_⟩ (by omega)
  have h256 : (2 : Nat) ^ 8 = 256 := by norm_num
  rw [h256]; ring

theorem extractByte_eq (x k : Nat) :
    (x &&& 255 <<< k) >>> k = x / 2 ^ k % 256 := by
  apply Nat.eq_of_testBit_eq
  intro j
  rw [Nat.testBit_shiftRight, Nat.testBit_land, Nat.testBit_shiftLeft]
  have h255 : (255 : Nat) = 2 ^ 8 - 1 := by norm_num
  rw [h255, Nat.testBit_two_pow_sub_one]
  have hmod : x / 2 ^ k % 256 = x / 2 ^ k % 2 ^ 8 := by norm_num
  rw [hmod, Nat.testBit_mod_two_pow, ← Nat.shiftRight_eq_div_pow,
    Nat.testBit_shiftRight]
  simp [ge_iff_le, Nat.le_add_right, show k + j - k = j from by omega,
    Bool.and_comm]

theorem land_mask_eq (x : Nat) (hx : x < 4294967296) :
    Nat.land x 4294967292 = x / 4 * 4 := by
  have hxp : x < 2 ^ 32 := lt_of_lt_of_le hx (by norm_num)
  apply Nat.eq_of_testBit_eq
  intro j
  have hmask : (4294967292 : Nat) = (2 ^ 30 - 1) <<< 2 := by
    rw [shiftLeft_eq_mul]; norm_num
  have hdiv : x / 4 * 4 = (x >>> 2) <<< 2 := by
    rw [Nat.shiftRight_eq_div_pow, shiftLeft_eq_mul]; norm_num
  have hland : Nat.land x 4294967292 = x &&& 4294967292 := rfl
  rw [hland, hdiv, hmask, Nat.testBit_land, Nat.testBit_shiftLeft,
    Nat.testBit_shiftLeft, Nat.testBit_two_pow_sub_one, Nat.testBit_shiftRight]
  by_cases h2 : 2 ≤ j
  · have hj : 2 + (j - 2) = j := by omega
    rw [hj]
    by_cases h32 : j < 32
    · simp [h2, (show j - 2 < 30 from by omega)]
    · have hbit : x.testBit j = false :=
        Nat.testBit_lt_two_pow (lt_of_lt_of_le hxp
          (Nat.pow_le_pow_right (by norm_num) (by omega)))
      simp [hbit]
  · simp [h2]

/-! ## Serialisation lemmas -/

theorem serializeHeader_length (h : BMPFileHeader) :
    (serializeHeader h).length = 14 := by
  simp [serializeHeader, writeU16, writeU32]

theorem serializeInfoBlock_length (ib : BMPFileInfoBlock) :
    (serializeInfoBlock ib).length = 40 := by
  simp [serializeInfoBlock, writeU16, writeU32]

theorem overlayBytes_full (nb ob : List Nat) (h : ob.length ≤ nb.length) :
    overlayBytes nb ob = nb := by
  unfold overlayBytes
  rw [List.drop_eq_nil_of_le h, List.append_nil]

theorem serialize_parseHeader (b : List Nat) (hlen : b.length = 14)
    (hb : ∀ x ∈ b, x < 256) : serializeHeader (parseHeader b) = b := by
  rcases b with _ | ⟨b0, _ | ⟨b1, _ | ⟨b2, _ | ⟨b3, _ | ⟨b4, _ | ⟨b5, _ |
    ⟨b6, _ | ⟨b7, _ | ⟨b8, _ | ⟨b9, _ | ⟨b10, _ | ⟨b11, _ | ⟨b12, _ |
    ⟨b13, rest⟩⟩⟩⟩⟩⟩⟩⟩⟩⟩⟩⟩⟩⟩ <;>
    simp only [List.length_cons, List.length_nil] at hlen <;> try omega
  obtain rfl : rest = [] := List.length_eq_zero.mp (by omega)
  simp only [serializeHeader, parseHeader, readU16, readU32, writeU16,
    writeU32, List.getD_cons_zero, List.getD_cons_succ, List.cons_append,
    List.nil_append]
  simp only [List.forall_mem_cons] at hb
  simp only [List.cons.injEq, and_true]
  refine ⟨?_, ?_, ?_, ?_, ?_, ?_, ?_, ?_, ?_, ?_, ?_, ?_, ?_, ?_⟩ <;> omega

theorem serialize_parseInfoBlock (b : List Nat) (hlen : b.length = 40)
    (hb : ∀ x ∈ b, x < 256) : serializeInfoBlock (parseInfoBlock b) = b := by
  rcases b with _ | ⟨b0, _ | ⟨b1, _ | ⟨b2, _ | ⟨b3, _ | ⟨b4, _ | ⟨b5, _ |
    ⟨b6, _ | ⟨b7, _ | ⟨b8, _ | ⟨b9, _ | ⟨b10, _ | ⟨b11, _ | ⟨b12, _ |
    ⟨b13, _ | ⟨b14, _ | ⟨b15, _ | ⟨b16, _ | ⟨b17, _ | ⟨b18, _ | ⟨b19, _ |
    ⟨b20, _ | ⟨b21, _ | ⟨b22, _ | ⟨b23, _ | ⟨b24, _ | ⟨b25, _ | ⟨b26, _ |
    ⟨b27, _ | ⟨b28, _ | ⟨b29, _ | ⟨b30, _ | ⟨b31, _ | ⟨b32, _ | ⟨b33, _ |
    ⟨b34, _ | ⟨b35, _ | ⟨b36, _ | ⟨b37, _ | ⟨b38, _ | ⟨b39,
    rest⟩⟩⟩⟩⟩⟩⟩⟩⟩⟩⟩⟩⟩⟩⟩⟩⟩⟩⟩⟩⟩⟩⟩⟩⟩⟩⟩⟩⟩⟩⟩⟩⟩⟩⟩⟩⟩⟩⟩⟩ <;>
    simp only [List.length_cons, List.length_nil] at hlen <;> try omega
  obtain rfl : rest = [] := List.length_eq_zero.mp (by omega)
  simp only [serializeInfoBlock, parseInfoBlock, readU16, readU32, writeU16,
    writeU32, List.getD_cons_zero, List.getD_cons_succ, List.cons_append,
    List.nil_append]
  simp only [List.forall_mem_cons] at hb
  simp only [List.cons.injEq, and_true]
  refine ⟨?_, ?_, ?_, ?_, ?_, ?_, ?_, ?_, ?_, ?_, ?_, ?_, ?_, ?_, ?_, ?_,
    ?_, ?_, ?_, ?_, ?_, ?_, ?_, ?_, ?_, ?_, ?_, ?_, ?_, ?_, ?_, ?_, ?_,
    ?_, ?_, ?_, ?_, ?_, ?_, ?_⟩ <;> omega

/-! ## Stride lemmas -/

theorem decodeRowSize_eq (w : Nat) (hw : w * 3 + 3 < 4294967296) :
    decodeRowSize w 3 = (3 * w + 3) / 4 * 4 := by
  unfold decodeRowSize
  rw [Nat.mod_eq_of_lt hw, land_mask_eq _ hw]
  omega

theorem encodeRowStride_eq (w : Nat) (hw : w * 24 + 31 < 4294967296) :
    encodeRowStride w 24 = (3 * w + 3) / 4 * 4 := by
  unfold encodeRowStride
  rw [Nat.mod_eq_of_lt hw]
  omega

/-! ## Stream-reading lemmas -/

theorem readByte_ok (data : List Nat) (pos cur : Nat)
    (h : pos < data.length) :
    ByteStream.readByte ⟨data, pos, false⟩ cur =
      (data.getD pos 0, ⟨data, pos + 1, false⟩) := by
  simp [ByteStream.readByte, h]

theorem readN_ok (data : List Nat) (pos n : Nat)
    (h : pos + n ≤ data.length) :
    ByteStream.readN ⟨data, pos, false⟩ n =
      ((data.drop pos).take n, ⟨data, pos + n, false⟩) := by
  simp [ByteStream.readN, h]

theorem readN_short (data : List Nat) (pos n : Nat)
    (h : ¬ pos + n ≤ data.length) :
    ByteStream.readN ⟨data, pos, false⟩ n =
      (data.drop pos, ⟨data, data.length, true⟩) := by
  simp [ByteStream.readN, h]

theorem readRowLoop_length (row : List Nat) (x cnt : Nat) (s : ByteStream) :
    (readRowLoop row x cnt s).1.length = row.length := by
  induction cnt generalizing row x s with
  | zero => rfl
  | succ cnt ih => simp [readRowLoop, ih, List.length_set]

theorem readRowLoop_spec (data : List Nat) (cnt : Nat) : ∀ (x : Nat)
    (row : List Nat) (pos : Nat), pos + 3 * cnt ≤ data.length →
    (readRowLoop row x cnt ⟨data, pos, false⟩).2 =
        ⟨data, pos + 3 * cnt, false⟩ ∧
    ∀ j, (readRowLoop row x cnt ⟨data, pos, false⟩).1.getD j 0 =
      if x ≤ j ∧ j < x + cnt ∧ j < row.length then
        pixAt data (pos + 3 * (j - x))
      else row.getD j 0 := by
  induction cnt with
  | zero =>
    intro x row pos _
    refine ⟨rfl, fun j => ?_⟩
    rw [if_neg (by omega)]
    exact rfl
  | succ cnt ih =>
    intro x row pos h
    have h0 : pos < data.length := by omega
    have h1 : pos + 1 < data.length := by omega
    have h2 : pos + 2 < data.length := by omega
    have hstep : readRowLoop row x (cnt + 1) ⟨data, pos, false⟩ =
        readRowLoop (row.set x (pixAt data pos)) (x + 1) cnt
          ⟨data, pos + 3, false⟩ := by
      simp only [readRowLoop, readByte_ok data pos 0 h0,
        readByte_ok data (pos + 1) 0 h1, readByte_ok data (pos + 2) 0 h2,
        pixAt]
    rw [hstep]
    obtain ⟨hs, hg⟩ := ih (x + 1) (row.set x (pixAt data pos)) (pos + 3)
      (by omega)
    constructor
    · rw [hs]
      congr 1
      omega
    · intro j
      rw [hg j, getD_set, List.length_set]
      by_cases hj1 : x + 1 ≤ j ∧ j < x + 1 + cnt ∧ j < row.length
      · rw [if_pos hj1,
          if_pos (show x ≤ j ∧ j < x + (cnt + 1) ∧ j < row.length from by omega)]
        congr 1
        omega
      · rw [if_neg hj1]
        by_cases hj3 : x = j ∧ x < row.length
        · rw [if_pos hj3,
            if_pos (show x ≤ j ∧ j < x + (cnt + 1) ∧ j < row.length from by omega)]
          obtain ⟨rfl, -⟩ := hj3
          congr 1
          omega
        · rw [if_neg hj3,
            if_neg (show ¬ (x ≤ j ∧ j < x + (cnt + 1) ∧ j < row.length) from by omega)]

theorem seekCur_ok (data : List Nat) (pos k : Nat) :
    ByteStream.seekCur ⟨data, pos, false⟩ k = ⟨data, pos + k, false⟩ := by
  simp [ByteStream.seekCur]

theorem seekAbs_ok (data : List Nat) (pos p : Nat) :
    ByteStream.seekAbs ⟨data, pos, false⟩ p = ⟨data, p, false⟩ := by
  simp [ByteStream.seekAbs]

theorem readRowsLoop_spec (data : List Nat) (h w rs : Nat)
    (hrs : 3 * w ≤ rs) : ∀ (cnt y : Nat) (grid : List (List Nat))
    (pos : Nat), y + cnt = h → pos + cnt * rs ≤ data.length →
    grid.length = h → (∀ r, r < h → (grid.getD r []).length = w) →
    (readRowsLoop grid y cnt h w rs 3 ⟨data, pos, false⟩).2 =
        ⟨data, pos + cnt * rs, false⟩ ∧
    (readRowsLoop grid y cnt h w rs 3 ⟨data, pos, false⟩).1.length = h ∧
    (∀ r, r < h →
      ((readRowsLoop grid y cnt h w rs 3 ⟨data, pos, false⟩).1.getD r
        []).length = w) ∧
    (∀ r, cnt ≤ r →
      (readRowsLoop grid y cnt h w rs 3 ⟨data, pos, false⟩).1.getD r [] =
        grid.getD r []) ∧
    (∀ r x, r < cnt → x < w →
      ((readRowsLoop grid y cnt h w rs 3 ⟨data, pos, false⟩).1.getD r
        []).getD x 0 = pixAt data (pos + (cnt - 1 - r) * rs + 3 * x)) := by
  intro cnt
  induction cnt with
  | zero =>
    intro y grid pos hyh hlen hgl hrw
    exact ⟨by simp [readRowsLoop], by simpa [readRowsLoop] using hgl,
      by simpa [readRowsLoop] using hrw, fun r _ => rfl,
      fun r x hr _ => absurd hr (Nat.not_lt_zero r)⟩
  | succ cnt ih =>
    intro y grid pos hyh hlen hgl hrw
    have hmul : (cnt + 1) * rs = cnt * rs + rs := Nat.succ_mul cnt rs
    have hri : h - y - 1 = cnt := by omega
    have hcnth : cnt < h := by omega
    obtain ⟨hrow2, hrow1⟩ := readRowLoop_spec data w 0 (grid.getD cnt [])
      pos (by omega)
    have hstep : readRowsLoop grid y (cnt + 1) h w rs 3 ⟨data, pos, false⟩ =
        readRowsLoop
          (grid.set cnt
            (readRowLoop (grid.getD cnt []) 0 w ⟨data, pos, false⟩).1)
          (y + 1) cnt h w rs 3 ⟨data, pos + rs, false⟩ := by
      simp only [readRowsLoop, hri, hrow2]
      by_cases hp : 0 < rs - w * 3
      · rw [if_pos hp, seekCur_ok]
        have harith : pos + 3 * w + (rs - w * 3) = pos + rs := by omega
        rw [harith]
      · rw [if_neg hp]
        have harith : pos + 3 * w = pos + rs := by omega
        rw [harith]
    set row1 := (readRowLoop (grid.getD cnt []) 0 w ⟨data, pos, false⟩).1
      with hrow1def
    have hrow1len : row1.length = w := by
      rw [hrow1def, readRowLoop_length]
      exact hrw cnt hcnth
    obtain ⟨ih1, ih2, ih3, ih4, ih5⟩ := ih (y + 1) (grid.set cnt row1)
      (pos + rs) (by omega) (by omega)
      (by rw [List.length_set]; exact hgl)
      (by
        intro r hr
        rw [getD_set]
        by_cases hcr : cnt = r ∧ cnt < grid.length
        · rw [if_pos hcr]; exact hrow1len
        · rw [if_neg hcr]; exact hrw r hr)
    rw [hstep]
    refine ⟨?_, ih2, ih3, ?_, ?_⟩
    · rw [ih1]
      have harith : pos + rs + cnt * rs = pos + (cnt + 1) * rs := by omega
      rw [harith]
    · intro r hr
      rw [ih4 r (by omega), getD_set,
        if_neg (by omega : ¬ (cnt = r ∧ cnt < grid.length))]
    · intro r x hr hx
      by_cases hrc : r < cnt
      · rw [ih5 r x hrc hx]
        have harith : pos + rs + (cnt - 1 - r) * rs + 3 * x =
            pos + (cnt + 1 - 1 - r) * rs + 3 * x := by
          have hm2 : (cnt + 1 - 1 - r) * rs = (cnt - 1 - r) * rs + rs := by
            rw [show cnt + 1 - 1 - r = (cnt - 1 - r) + 1 from by omega,
              Nat.succ_mul]
          omega
        rw [harith]
      · have hrc2 : r = cnt := by omega
        subst hrc2
        have hglen : (grid.getD r []).length = w := hrw r (by omega)
        rw [ih4 r (Nat.le_refl r), getD_set,
          if_pos ⟨rfl, by omega⟩, hrow1 x,
          if_pos ⟨Nat.zero_le x, by omega, by omega⟩]
        have harith : pos + 3 * (x - 0) = pos + (r + 1 - 1 - r) * rs + 3 * x := by
          have hz : r + 1 - 1 - r = 0 := by omega
          rw [hz, Nat.zero_mul]
          omega
        rw [harith]

theorem resizeGrid_nil (h w : Nat) :
    resizeGrid [] h w = List.replicate h (List.replicate w 0) := by
  cases h <;> simp [resizeGrid]

/-- Master characterisation of a successful `read` call: on an input
holding at least the two headers, with the BM magic and 24-bit depth,
whose declared pixel region fits in the file, decoding succeeds and the
resulting state is fully described.  `off`, `w`, `h` abbreviate the
parsed offset, width and height. -/
theorem read_spec (st : EditorState) (input : List Nat)
    (hlen : 54 ≤ input.length)
    (hmagic : (parseHeader (input.take 14)).type_of_file = 19778)
    (hdepth : (parseInfoBlock ((input.drop 14).take 40)).color_depth_in_bits
      = 24)
    (hpix : (parseHeader (input.take 14)).offset_to_pixel_data +
      (parseInfoBlock ((input.drop 14).take 40)).height *
        decodeRowSize ((parseInfoBlock ((input.drop 14).take 40)).width) 3 ≤
      input.length)
    (hrs : 3 * (parseInfoBlock ((input.drop 14).take 40)).width ≤
      decodeRowSize ((parseInfoBlock ((input.drop 14).take 40)).width) 3)
    (hempty : st.pixels = []) :
    (read st input).2 = none ∧
    (read st input).1.file_header = parseHeader (input.take 14) ∧
    (read st input).1.info_block = parseInfoBlock ((input.drop 14).take 40) ∧
    (read st input).1.fileWasRead = true ∧
    (read st input).1.pixels.length =
      (parseInfoBlock ((input.drop 14).take 40)).height ∧
    (∀ r, r < (parseInfoBlock ((input.drop 14).take 40)).height →
      ((read st input).1.pixels.getD r []).length =
        (parseInfoBlock ((input.drop 14).take 40)).width) ∧
    (∀ r x, r < (parseInfoBlock ((input.drop 14).take 40)).height →
      x < (parseInfoBlock ((input.drop 14).take 40)).width →
      ((read st input).1.pixels.getD r []).getD x 0 =
        pixAt input ((parseHeader (input.take 14)).offset_to_pixel_data +
          ((parseInfoBlock ((input.drop 14).take 40)).height - 1 - r) *
            decodeRowSize ((parseInfoBlock ((input.drop 14).take 40)).width) 3
          + 3 * x)) := by
  set fh := parseHeader (input.take 14) with hfh
  set info := parseInfoBlock ((input.drop 14).take 40) with hinfo
  have e1 : ByteStream.readN ⟨input, 0, false⟩ 14 =
      (input.take 14, ⟨input, 14, false⟩) := by
    rw [readN_ok input 0 14 (by omega)]
    simp
  have e2 : ByteStream.readN ⟨input, 14, false⟩ 40 =
      ((input.drop 14).take 40, ⟨input, 54, false⟩) := by
    rw [readN_ok input 14 40 (by omega)]
  have hov1 : overlayBytes (input.take 14) (serializeHeader st.file_header) =
      input.take 14 := by
    apply overlayBytes_full
    rw [serializeHeader_length, List.length_take]
    omega
  have hov2 : overlayBytes ((input.drop 14).take 40)
      (serializeInfoBlock st.info_block) = (input.drop 14).take 40 := by
    apply overlayBytes_full
    rw [serializeInfoBlock_length, List.length_take, List.length_drop]
    omega
  have hred : read st input =
      ((⟨fh, info,
          (readRowsLoop (List.replicate info.height
              (List.replicate info.width 0)) 0 info.height info.height
              info.width (decodeRowSize info.width 3) 3
              ⟨input, fh.offset_to_pixel_data, false⟩).1,
          true⟩ : EditorState), none) := by
    simp only [read, e1, e2, hov1, hov2]
    rw [if_neg (by simp), if_neg (by simp), if_neg (not_not_intro hmagic),
      if_neg (not_not_intro hdepth), seekAbs_ok, hempty, resizeGrid_nil,
      hdepth]
  obtain ⟨hs1, hs2, hs3, hs4, hs5⟩ := readRowsLoop_spec input info.height
    info.width (decodeRowSize info.width 3) hrs info.height 0
    (List.replicate info.height (List.replicate info.width 0))
    fh.offset_to_pixel_data (Nat.zero_add _) hpix
    (List.length_replicate _ _)
    (fun r hr => by
      rw [getD_replicate, if_pos hr, List.length_replicate])
  rw [hred]
  refine ⟨rfl, rfl, rfl, rfl, hs2, hs3, ?_⟩
  intro r x hr hx
  exact hs5 r x hr hx

/-! ## Encoder lemmas -/

theorem land_255_eq_mod (x : Nat) : x &&& 255 = x % 256 := by
  have h := extractByte_eq x 0
  simpa using h

theorem pixelBytes_eq (p : Nat) :
    pixelBytes p = [p / 65536 % 256, p / 256 % 256, p % 256] := by
  unfold pixelBytes
  rw [extractByte_eq p 16, extractByte_eq p 8, land_255_eq_mod]
  norm_num

theorem pixelBytes_length (p : Nat) : (pixelBytes p).length = 3 := by
  rw [pixelBytes_eq]
  rfl

theorem saveRowData_length (row : List Nat) (x cnt : Nat) :
    (saveRowData row x cnt).length = 3 * cnt := by
  induction cnt generalizing x with
  | zero => rfl
  | succ cnt ih =>
    show (pixelBytes _ ++ saveRowData row (x + 1) cnt).length = 3 * (cnt + 1)
    rw [List.length_append, pixelBytes_length, ih (x + 1)]
    omega

theorem saveRowData_getD (row : List Nat) (cnt : Nat) : ∀ (x j : Nat),
    j < 3 * cnt → (saveRowData row x cnt).getD j 0 =
      (pixelBytes (row.getD (x + j / 3) 0)).getD (j % 3) 0 := by
  induction cnt with
  | zero => intro x j hj; omega
  | succ cnt ih =>
    intro x j hj
    show (pixelBytes _ ++ saveRowData row (x + 1) cnt).getD j 0 = _
    by_cases hj3 : j < 3
    · rw [List.getD_append _ _ _ _ (by rw [pixelBytes_length]; omega),
        (show x + j / 3 = x from by omega),
        (show j % 3 = j from by omega)]
    · rw [List.getD_append_right _ _ _ _ (by rw [pixelBytes_length]; omega),
        pixelBytes_length, ih (x + 1) (j - 3) (by omega),
        (show x + 1 + (j - 3) / 3 = x + j / 3 from by omega),
        (show (j - 3) % 3 = j % 3 from by omega)]

theorem saveRow_length (row : List Nat) (w stride : Nat) :
    (saveRow row w stride).length = 3 * w + (stride - 3 * w) := by
  unfold saveRow
  rw [List.length_append, saveRowData_length, List.length_replicate]

theorem saveRow_getD_pixel (row : List Nat) (w stride j : Nat)
    (hj : j < 3 * w) : (saveRow row w stride).getD j 0 =
      (pixelBytes (row.getD (j / 3) 0)).getD (j % 3) 0 := by
  unfold saveRow
  rw [List.getD_append _ _ _ _ (by rw [saveRowData_length]; omega),
    saveRowData_getD row w 0 j hj, Nat.zero_add]

theorem saveRow_getD_pad (row : List Nat) (w stride j : Nat)
    (hj1 : 3 * w ≤ j) (hj2 : j < 3 * w + (stride - 3 * w)) :
    (saveRow row w stride).getD j 0 = 0 := by
  unfold saveRow
  rw [List.getD_append_right _ _ _ _ (by rw [saveRowData_length]; omega),
    saveRowData_length, getD_replicate, if_pos (by omega)]

theorem saveRowsLoop_length (pixels : List (List Nat)) (w stride : Nat) :
    ∀ h, (saveRowsLoop pixels w stride h).length =
      h * (3 * w + (stride - 3 * w)) := by
  intro h
  induction h with
  | zero => simp [saveRowsLoop]
  | succ h ih =>
    show (saveRow _ w stride ++ saveRowsLoop pixels w stride h).length = _
    rw [List.length_append, saveRow_length, ih]
    ring

theorem saveRowsLoop_getD (pixels : List (List Nat)) (w stride : Nat) :
    ∀ (h d j : Nat), d < h → j < 3 * w + (stride - 3 * w) →
    (saveRowsLoop pixels w stride h).getD
        (d * (3 * w + (stride - 3 * w)) + j) 0 =
      (saveRow (pixels.getD (h - 1 - d) []) w stride).getD j 0 := by
  intro h
  induction h with
  | zero => intro d j hd; omega
  | succ h ih =>
    intro d j hd hj
    show (saveRow _ w stride ++ saveRowsLoop pixels w stride h).getD _ 0 = _
    cases d with
    | zero =>
      rw [Nat.zero_mul, Nat.zero_add,
        List.getD_append _ _ _ _ (by rw [saveRow_length]; omega)]
      norm_num
    | succ d =>
      rw [List.getD_append_right _ _ _ _ (by rw [saveRow_length]; nlinarith),
        saveRow_length,
        (show (d + 1) * (3 * w + (stride - 3 * w)) + j -
            (3 * w + (stride - 3 * w)) =
          d * (3 * w + (stride - 3 * w)) + j from by
            rw [Nat.succ_mul]; omega),
        ih d j (by omega) hj,
        (show h + 1 - 1 - (d + 1) = h - 1 - d from by omega)]

theorem save_take_54 (st : EditorState) :
    (save st).take 54 =
      serializeHeader st.file_header ++ serializeInfoBlock st.info_block := by
  have h54 : (serializeHeader st.file_header ++
      serializeInfoBlock st.info_block).length = 54 := by
    rw [List.length_append, serializeHeader_length, serializeInfoBlock_length]
  show ((serializeHeader st.file_header ++ serializeInfoBlock st.info_block)
    ++ _).take 54 = _
  rw [← h54, List.take_left]

theorem save_drop_54 (st : EditorState) :
    (save st).drop 54 = saveRowsLoop st.pixels st.info_block.width
      (encodeRowStride st.info_block.width st.info_block.color_depth_in_bits)
      st.info_block.height := by
  have h54 : (serializeHeader st.file_header ++
      serializeInfoBlock st.info_block).length = 54 := by
    rw [List.length_append, serializeHeader_length, serializeInfoBlock_length]
  show ((serializeHeader st.file_header ++ serializeInfoBlock st.info_block)
    ++ _).drop 54 = _
  rw [← h54, List.drop_left]

theorem ext_getD (l1 l2 : List Nat) (hlen : l1.length = l2.length)
    (h : ∀ i, i < l1.length → l1.getD i 0 = l2.getD i 0) : l1 = l2 := by
  apply List.ext_getElem hlen
  intro n h1 h2
  have hn := h n h1
  rwa [List.getD_eq_getElem _ _ h1, List.getD_eq_getElem _ _ h2] at hn

theorem pixelBytes_pixAt (data : List Nat) (p : Nat)
    (hb : ∀ x ∈ data, x < 256) :
    pixelBytes (pixAt data p) =
      [data.getD p 0, data.getD (p + 1) 0, data.getD (p + 2) 0] := by
  have h0 := getD_lt_of_forall_lt data p 256 (by norm_num) hb
  have h1 := getD_lt_of_forall_lt data (p + 1) 256 (by norm_num) hb
  have h2 := getD_lt_of_forall_lt data (p + 2) 256 (by norm_num) hb
  unfold pixAt
  rw [packColor_eq_add _ _ _ h1 h2, pixelBytes_eq]
  have e0 : (data.getD p 0 * 65536 + data.getD (p + 1) 0 * 256 +
      data.getD (p + 2) 0) / 65536 % 256 = data.getD p 0 := by omega
  have e1 : (data.getD p 0 * 65536 + data.getD (p + 1) 0 * 256 +
      data.getD (p + 2) 0) / 256 % 256 = data.getD (p + 1) 0 := by omega
  have e2 : (data.getD p 0 * 65536 + data.getD (p + 1) 0 * 256 +
      data.getD (p + 2) 0) % 256 = data.getD (p + 2) 0 := by omega
  rw [e0, e1, e2]

theorem wfBMP_rs_ge (w : Nat) (hw : w < 1073741824) :
    3 * w ≤ decodeRowSize w 3 := by
  rw [decodeRowSize_eq w (by omega)]
  omega

/-- Restatement of `read_spec` through the `hdrOf`/`infoOf`
abbreviations. -/
theorem read_spec2 (st : EditorState) (input : List Nat)
    (hlen : 54 ≤ input.length)
    (hmagic : (hdrOf input).type_of_file = 19778)
    (hdepth : (infoOf input).color_depth_in_bits = 24)
    (hpix : (hdrOf input).offset_to_pixel_data +
      (infoOf input).height * decodeRowSize (infoOf input).width 3 ≤
      input.length)
    (hrs : 3 * (infoOf input).width ≤ decodeRowSize (infoOf input).width 3)
    (hempty : st.pixels = []) :
    (read st input).2 = none ∧
    (read st input).1.file_header = hdrOf input ∧
    (read st input).1.info_block = infoOf input ∧
    (read st input).1.fileWasRead = true ∧
    (read st input).1.pixels.length = (infoOf input).height ∧
    (∀ r, r < (infoOf input).height →
      ((read st input).1.pixels.getD r []).length = (infoOf input).width) ∧
    (∀ r x, r < (infoOf input).height → x < (infoOf input).width →
      ((read st input).1.pixels.getD r []).getD x 0 =
        pixAt input ((hdrOf input).offset_to_pixel_data +
          ((infoOf input).height - 1 - r) *
            decodeRowSize (infoOf input).width 3 + 3 * x)) :=
  read_spec st input hlen hmagic hdepth hpix hrs hempty

/-- Round-trip core: decoding a well-formed stream whose width avoids
the encoder's 32-bit stride overflow, and re-encoding, reproduces the
two header blocks and the pixel data section byte for byte. -/
theorem roundtrip_spec (input : List Nat) (hwf : wfBMP input)
    (hw : (infoOf input).width ≤ 178956969) :
    (read initState input).2 = none ∧
    (save (read initState input).1).take 54 = input.take 54 ∧
    (save (read initState input).1).drop 54 =
      (input.drop (hdrOf input).offset_to_pixel_data).take
        ((infoOf input).height * decodeRowSize (infoOf input).width 3) := by
  obtain ⟨hlen, hbytes, hmagic, hdepth, hcomp, hwlt, hhlt, hfit, hpad⟩ := hwf
  have hrs : 3 * (infoOf input).width ≤ decodeRowSize (infoOf input).width 3 :=
    wfBMP_rs_ge _ hwlt
  obtain ⟨hr1, hr2, hr3, hr4, hr5, hr6, hr7⟩ := read_spec2 initState input
    hlen hmagic hdepth hfit hrs rfl
  set w := (infoOf input).width with hwdef
  set hgt := (infoOf input).height with hhdef
  set off := (hdrOf input).offset_to_pixel_data with hoffdef
  set rs := decodeRowSize w 3 with hrsdef
  set st1 := (read initState input).1 with hst1
  have hstride : encodeRowStride st1.info_block.width
      st1.info_block.color_depth_in_bits = rs := by
    rw [hr3]
    show encodeRowStride w (infoOf input).color_depth_in_bits = rs
    rw [hdepth, encodeRowStride_eq w (by omega), hrsdef,
      decodeRowSize_eq w (by omega)]
  refine ⟨hr1, ?_, ?_⟩
  · rw [save_take_54, hr2, hr3]
    have ht14 : (input.take 14).length = 14 := by
      rw [List.length_take]; omega
    have ht40 : ((input.drop 14).take 40).length = 40 := by
      rw [List.length_take, List.length_drop]; omega
    show serializeHeader (parseHeader (input.take 14)) ++
      serializeInfoBlock (parseInfoBlock ((input.drop 14).take 40)) = _
    rw [serialize_parseHeader _ ht14
        (fun x hx => hbytes x (List.take_subset _ _ hx)),
      serialize_parseInfoBlock _ ht40
        (fun x hx => hbytes x (List.drop_subset _ _ (List.take_subset _ _ hx))),
      show (54 : Nat) = 14 + 40 from rfl, List.take_add]
  · rw [save_drop_54, hstride, hr3]
    show saveRowsLoop st1.pixels w rs hgt = _
    have hL : 3 * w + (rs - 3 * w) = rs := by omega
    apply ext_getD
    · rw [saveRowsLoop_length, hL, List.length_take, List.length_drop]
      omega
    · intro i hi
      rw [saveRowsLoop_length, hL] at hi
      have hrs0 : 0 < rs := by
        rcases Nat.eq_zero_or_pos rs with h0 | h0
        · rw [h0, Nat.mul_zero] at hi; omega
        · exact h0
      obtain ⟨d, j, hdj, hjlt⟩ : ∃ d j, i = d * rs + j ∧ j < rs :=
        ⟨i / rs, i % rs,
          by rw [Nat.mul_comm]; exact (Nat.div_add_mod i rs).symm,
          Nat.mod_lt _ hrs0⟩
      have hd : d < hgt := by
        by_contra hcon
        push_neg at hcon
        have hmono : hgt * rs ≤ d * rs := Nat.mul_le_mul_right rs hcon
        omega
      rw [getD_take, if_pos hi, getD_drop]
      conv_lhs =>
        rw [show i = d * (3 * w + (rs - 3 * w)) + j from by rw [hL]; omega]
      rw [saveRowsLoop_getD st1.pixels w rs hgt d j hd
        (by rw [hL]; exact hjlt)]
      by_cases hpx : j < 3 * w
      · rw [saveRow_getD_pixel _ _ _ _ hpx]
        have hx3 : j / 3 < w := by omega
        rw [hr7 (hgt - 1 - d) (j / 3) (by omega) hx3,
          show hgt - 1 - (hgt - 1 - d) = d from by omega,
          pixelBytes_pixAt input _ hbytes]
        rcases (show j % 3 = 0 ∨ j % 3 = 1 ∨ j % 3 = 2 from by omega)
            with h3 | h3 | h3 <;>
          rw [h3] <;>
          simp only [List.getD_cons_zero, List.getD_cons_succ] <;>
          congr 1 <;> omega
      · rw [saveRow_getD_pad _ _ _ _ (by omega) (by omega),
          show off + i = off + d * rs + j from by omega,
          hpad d hd j hjlt (by omega)]

/-! ## Failure-path lemmas for `read` -/

/-- With both headers available, `read` reaches the two validity checks,
the parsed headers are stored, and the outcome is decided purely by the
magic tag and the colour depth. -/
theorem read_headers_spec (st : EditorState) (input : List Nat)
    (hlen : 54 ≤ input.length) :
    (read st input).1.file_header = hdrOf input ∧
    (read st input).1.info_block = infoOf input ∧
    (read st input).2 =
      (if (hdrOf input).type_of_file ≠ 19778 then some BMPError.notBmpFile
       else if (infoOf input).color_depth_in_bits ≠ 24 then
         some BMPError.badColorDepth
       else none) := by
  have e1 : ByteStream.readN ⟨input, 0, false⟩ 14 =
      (input.take 14, ⟨input, 14, false⟩) := by
    rw [readN_ok input 0 14 (by omega)]
    simp
  have e2 : ByteStream.readN ⟨input, 14, false⟩ 40 =
      ((input.drop 14).take 40, ⟨input, 54, false⟩) := by
    rw [readN_ok input 14 40 (by omega)]
  have hov1 : overlayBytes (input.take 14) (serializeHeader st.file_header) =
      input.take 14 := by
    apply overlayBytes_full
    rw [serializeHeader_length, List.length_take]
    omega
  have hov2 : overlayBytes ((input.drop 14).take 40)
      (serializeInfoBlock st.info_block) = (input.drop 14).take 40 := by
    apply overlayBytes_full
    rw [serializeInfoBlock_length, List.length_take, List.length_drop]
    omega
  refine ⟨?_, ?_, ?_⟩ <;>
    simp only [read, e1, e2, hov1, hov2, hdrOf, infoOf] <;>
    rw [if_neg (by simp), if_neg (by simp)] <;>
    split_ifs <;> rfl

/-- Whenever `read` throws, the pixel grid and the `fileWasRead` flag
still have their values from before the call (the header structs,
however, may already have been overwritten). -/
theorem read_fail_state (st : EditorState) (input : List Nat) (e : BMPError)
    (hfail : (read st input).2 = some e) :
    (read st input).1.pixels = st.pixels ∧
    (read st input).1.fileWasRead = st.fileWasRead := by
  simp only [read] at hfail ⊢
  rcases h14 : ByteStream.readN ⟨input, 0, false⟩ 14 with ⟨hb, s1⟩
  rw [h14] at hfail
  dsimp only at hfail ⊢
  by_cases hf1 : s1.failed = true
  · rw [if_pos hf1]
    exact ⟨rfl, rfl⟩
  · rw [if_neg hf1] at hfail ⊢
    rcases h40 : s1.readN 40 with ⟨ib, s2⟩
    rw [h40] at hfail
    dsimp only at hfail ⊢
    by_cases hf2 : s2.failed = true
    · rw [if_pos hf2]
      exact ⟨rfl, rfl⟩
    · rw [if_neg hf2] at hfail ⊢
      by_cases hm : (parseHeader (overlayBytes hb
          (serializeHeader st.file_header))).type_of_file ≠ 19778
      · rw [if_pos hm]
        exact ⟨rfl, rfl⟩
      · rw [if_neg hm] at hfail ⊢
        by_cases hd : (parseInfoBlock (overlayBytes ib
            (serializeInfoBlock st.info_block))).color_depth_in_bits ≠ 24
        · rw [if_pos hd]
          exact ⟨rfl, rfl⟩
        · rw [if_neg hd] at hfail
          simp at hfail

/-! ## `drawCross` lemmas -/

theorem drawLoop_spec (color w : Nat) : ∀ (cnt i : Nat)
    (g : List (List Nat)),
    (drawLoop g color w i cnt).length = g.length ∧
    (∀ r, r < i → (drawLoop g color w i cnt).getD r [] = g.getD r []) ∧
    (∀ r, i + cnt ≤ r → (drawLoop g color w i cnt).getD r [] =
      g.getD r []) ∧
    (∀ r, i ≤ r → r < i + cnt → r < g.length →
      (drawLoop g color w i cnt).getD r [] =
        ((g.getD r []).set r color).set (w - r - 1) color) := by
  intro cnt
  induction cnt with
  | zero =>
    intro i g
    exact ⟨rfl, fun r _ => rfl, fun r _ => rfl, fun r _ hr2 _ => by omega⟩
  | succ cnt ih =>
    intro i g
    have hstep : drawLoop g color w i (cnt + 1) =
        drawLoop (g.set i (((g.getD i []).set i color).set (w - i - 1)
          color)) color w (i + 1) cnt := rfl
    rw [hstep]
    obtain ⟨ih1, ih2, ih3, ih4⟩ := ih (i + 1)
      (g.set i (((g.getD i []).set i color).set (w - i - 1) color))
    refine ⟨by rw [ih1, List.length_set], ?_, ?_, ?_⟩
    · intro r hr
      rw [ih2 r (by omega), getD_set, if_neg (by omega)]
    · intro r hr
      rw [ih3 r (by omega), getD_set, if_neg (by omega)]
    · intro r hr1 hr2 hr3
      by_cases hri : r = i
      · subst hri
        rw [ih2 r (by omega), getD_set, if_pos ⟨rfl, hr3⟩]
      · rw [ih4 r (by omega) (by rw [List.length_set] at *; omega)
            (by rw [List.length_set]; omega),
          getD_set, if_neg (by omega)]

/-- Full characterisation of a `drawCross` call on a loaded state whose
grid dimensions agree with the info block. -/
theorem drawCross_spec (st : EditorState) (blue green red : Nat)
    (hflag : st.fileWasRead = true)
    (hlen : st.pixels.length = st.info_block.height)
    (hrows : ∀ r, r < st.info_block.height →
      (st.pixels.getD r []).length = st.info_block.width) :
    (drawCross st blue green red).2 = none ∧
    (drawCross st blue green red).1.file_header = st.file_header ∧
    (drawCross st blue green red).1.info_block = st.info_block ∧
    (drawCross st blue green red).1.fileWasRead = st.fileWasRead ∧
    (drawCross st blue green red).1.pixels.length = st.pixels.length ∧
    (∀ r, r < st.info_block.height →
      ((drawCross st blue green red).1.pixels.getD r []).length =
        st.info_block.width) ∧
    (∀ r c, r < st.info_block.height → c < st.info_block.width →
      ((drawCross st blue green red).1.pixels.getD r []).getD c 0 =
        if r < min st.info_block.height st.info_block.width ∧
            (c = r ∨ c = st.info_block.width - 1 - r) then
          blue <<< 16 ||| green <<< 8 ||| red
        else (st.pixels.getD r []).getD c 0) := by
  have hred : drawCross st blue green red =
      ((⟨st.file_header, st.info_block,
        drawLoop st.pixels (blue <<< 16 ||| green <<< 8 ||| red)
          st.info_block.width 0
          (min st.info_block.height st.info_block.width),
        st.fileWasRead⟩ : EditorState), none) := by
    unfold drawCross
    rw [if_neg (by rw [hflag]; exact fun hcon => hcon rfl)]
  obtain ⟨hd1, hd2, hd3, hd4⟩ := drawLoop_spec
    (blue <<< 16 ||| green <<< 8 ||| red) st.info_block.width
    (min st.info_block.height st.info_block.width) 0 st.pixels
  rw [hred]
  refine ⟨rfl, rfl, rfl, rfl, hd1, ?_, ?_⟩
  · intro r hr
    by_cases hrn : r < min st.info_block.height st.info_block.width
    · show ((drawLoop _ _ _ 0 _).getD r []).length = _
      rw [hd4 r (by omega) (by omega) (by omega), List.length_set,
        List.length_set]
      exact hrows r hr
    · show ((drawLoop _ _ _ 0 _).getD r []).length = _
      rw [hd3 r (by omega)]
      exact hrows r hr
  · intro r c hr hc
    by_cases hrn : r < min st.info_block.height st.info_block.width
    · show ((drawLoop _ _ _ 0 _).getD r []).getD c 0 = _
      rw [hd4 r (by omega) (by omega) (by omega), getD_set, getD_set,
        List.length_set]
      have hrw2 : (st.pixels.getD r []).length = st.info_block.width :=
        hrows r hr
      by_cases hc1 : c = st.info_block.width - 1 - r
      · rw [if_pos ⟨(by omega : st.info_block.width - r - 1 = c), by omega⟩,
          if_pos ⟨hrn, Or.inr hc1⟩]
      · rw [if_neg (by omega)]
        by_cases hc2 : c = r
        · rw [if_pos ⟨hc2.symm, by omega⟩, if_pos ⟨hrn, Or.inl hc2⟩]
        · rw [if_neg (by omega), if_neg (by
            intro hcon
            rcases hcon.2 with h | h
            · exact hc2 h
            · exact hc1 h)]
    · show ((drawLoop _ _ _ 0 _).getD r []).getD c 0 = _
      rw [hd3 r (by omega), if_neg (by omega)]

/-! ## Claim C5 -/

/-- C5 (corrected): for every width up to 178956969 the stride used by
decode and the stride recomputed by encode both equal
`((3 * w + 3) / 4) * 4`; for widths 1, 2, 3, 4, 5 this stride takes the
values 4, 8, 12, 12, 16 (not 4, 4, 4, 12, 8 as the specification
claims). -/
theorem c5_stride_formula (w : Nat) (hw : w ≤ 178956969) :
    (decodeRowSize w 3 = (3 * w + 3) / 4 * 4 ∧
     encodeRowStride w 24 = (3 * w + 3) / 4 * 4) ∧
    (decodeRowSize 1 3 = 4 ∧ decodeRowSize 2 3 = 8 ∧
     decodeRowSize 3 3 = 12 ∧ decodeRowSize 4 3 = 12 ∧
     decodeRowSize 5 3 = 16 ∧ encodeRowStride 1 24 = 4 ∧
     encodeRowStride 2 24 = 8 ∧ encodeRowStride 3 24 = 12 ∧
     encodeRowStride 4 24 = 12 ∧ encodeRowStride 5 24 = 16) := by
  exact ⟨⟨decodeRowSize_eq w (by omega), encodeRowStride_eq w (by omega)⟩,
    by decide⟩

/-- Witness for C5 at width 5. -/
theorem c5_stride_formula_witness :
    (5 : Nat) ≤ 178956969 ∧ decodeRowSize 5 3 = (3 * 5 + 3) / 4 * 4 ∧
    encodeRowStride 5 24 = (3 * 5 + 3) / 4 * 4 :=
  ⟨by norm_num, (c5_stride_formula 5 (by norm_num)).1.1,
    (c5_stride_formula 5 (by norm_num)).1.2⟩

/-- Counterexample to C5 as stated: the spec's value list says the
stride is 4 at width 2 and 8 at width 5; the code computes 8 and 16.
Moreover, at width 178956970 the encoder's 32-bit stride computation
overflows to 0 while the decoder's stride is 536870912, so "for every
width" fails as well. -/
theorem c5_counterexample :
    decodeRowSize 2 3 = 8 ∧ encodeRowStride 2 24 = 8 ∧ (8 : Nat) ≠ 4 ∧
    decodeRowSize 5 3 = 16 ∧ encodeRowStride 5 24 = 16 ∧ (16 : Nat) ≠ 8 ∧
    decodeRowSize 178956970 3 = 536870912 ∧
    encodeRowStride 178956970 24 = 0 := by
  refine ⟨by decide, by decide, by decide, by decide, by decide, by decide,
    ?_, ?_⟩
  · rw [decodeRowSize_eq 178956970 (by norm_num)]
  · unfold encodeRowStride
    norm_num

/-! ## Claim C2 -/

/-- C2 (corrected): once the two headers are validated, `read` contains
no error check in its pixel loop, so an input whose pixel section is
shorter than `height * stride` still decodes with no error; the missing
bytes are silently read as 0. -/
theorem c2_truncation_not_detected (st : EditorState) (input : List Nat)
    (hlen : 54 ≤ input.length)
    (hmagic : (hdrOf input).type_of_file = 19778)
    (hdepth : (infoOf input).color_depth_in_bits = 24)
    (htrunc : input.length < (hdrOf input).offset_to_pixel_data +
      (infoOf input).height * decodeRowSize (infoOf input).width 3) :
    (read st input).2 = none := by
  obtain ⟨-, -, h3⟩ := read_headers_spec st input hlen
  rw [h3, if_neg (not_not_intro hmagic), if_neg (not_not_intro hdepth)]

/-- Witness for C2's corrected statement on the truncated 1-by-1 file. -/
theorem c2_truncation_not_detected_witness :
    exTruncated.length <
      (hdrOf exTruncated).offset_to_pixel_data +
      (infoOf exTruncated).height * decodeRowSize (infoOf exTruncated).width 3 ∧
    (read initState exTruncated).2 = none :=
  ⟨by decide, c2_truncation_not_detected initState exTruncated (by decide)
    (by decide) (by decide) (by decide)⟩

/-- Counterexample to C2 as stated: `exTruncated` supplies 0 of the 4
pixel-section bytes its header implies, yet decode succeeds (no
`TruncatedPixelData` error exists in the code), marks the file as read,
and returns the grid `[[0]]`. -/
theorem c2_counterexample :
    exTruncated.length = 54 ∧
    (read initState exTruncated).2 = none ∧
    (read initState exTruncated).1.fileWasRead = true ∧
    (read initState exTruncated).1.pixels = [[0]] := by decide

/-! ## Claim C3 -/

/-- C3 (corrected): `read` never inspects `type_of_compression`; an
input declaring nonzero compression decodes with no error and the field
is stored as parsed. -/
theorem c3_compression_not_validated (st : EditorState) (input : List Nat)
    (hlen : 54 ≤ input.length)
    (hmagic : (hdrOf input).type_of_file = 19778)
    (hdepth : (infoOf input).color_depth_in_bits = 24)
    (hcomp : (infoOf input).type_of_compression ≠ 0) :
    (read st input).2 = none ∧
    (read st input).1.info_block.type_of_compression =
      (infoOf input).type_of_compression := by
  obtain ⟨-, h2, h3⟩ := read_headers_spec st input hlen
  exact ⟨by rw [h3, if_neg (not_not_intro hmagic),
    if_neg (not_not_intro hdepth)], by rw [h2]⟩

/-- Witness for C3's corrected statement on the compressed-flag file. -/
theorem c3_compression_not_validated_witness :
    (infoOf exCompressed).type_of_compression ≠ 0 ∧
    (read initState exCompressed).2 = none ∧
    (read initState exCompressed).1.info_block.type_of_compression =
      (infoOf exCompressed).type_of_compression :=
  ⟨by decide,
    (c3_compression_not_validated initState exCompressed (by decide)
      (by decide) (by decide) (by decide)).1,
    (c3_compression_not_validated initState exCompressed (by decide)
      (by decide) (by decide) (by decide)).2⟩

/-- Counterexample to C3 as stated: `exCompressed` declares compression
type 1, yet decode succeeds and produces the pixel grid (no
`UnsupportedCompression` error exists in the code). -/
theorem c3_counterexample :
    (infoOf exCompressed).type_of_compression = 1 ∧
    (read initState exCompressed).2 = none ∧
    (read initState exCompressed).1.pixels = [[660510]] := by decide

/-! ## Claim C6 -/

/-- C6 (corrected): whatever error `read` throws, the pixel grid and the
loaded flag still hold their values from before the call.  (The header
structs, in contrast, are overwritten before validation, so full
atomicity fails.) -/
theorem c6_failure_preserves_grid_and_flag (st : EditorState)
    (input : List Nat) (e : BMPError)
    (hfail : (read st input).2 = some e) :
    (read st input).1.pixels = st.pixels ∧
    (read st input).1.fileWasRead = st.fileWasRead :=
  read_fail_state st input e hfail

/-- Witness for C6's corrected statement on a failing 3-byte input. -/
theorem c6_failure_preserves_grid_and_flag_witness :
    (read initState [0, 0, 0]).2 = some BMPError.readFailure ∧
    (read initState [0, 0, 0]).1.pixels = initState.pixels ∧
    (read initState [0, 0, 0]).1.fileWasRead = initState.fileWasRead :=
  ⟨by decide,
    (c6_failure_preserves_grid_and_flag initState [0, 0, 0]
      BMPError.readFailure (by decide)).1,
    (c6_failure_preserves_grid_and_flag initState [0, 0, 0]
      BMPError.readFailure (by decide)).2⟩

/-- Counterexample to C6 as stated: after a successful decode of the
1-by-1 image `exTiny` (width field 1), a failing decode of the
wrong-magic input `exBadMagic` (width field 7) leaves the editor with
`info_block.width = 7`: the failed call overwrote both header structs,
so the observable state is not what it was before the call. -/
theorem c6_counterexample :
    (read (read initState exTiny).1 exBadMagic).2 =
      some BMPError.notBmpFile ∧
    (read initState exTiny).1.info_block.width = 1 ∧
    (read (read initState exTiny).1 exBadMagic).1.info_block.width = 7 := by
  decide

/-! ## Claim C7 -/

/-- C7 (corrected): `drawCross` does check the loaded flag and fails
with the "first you need to read" error doing no work; `save`, however,
performs no such check: on an unloaded state it still writes the two
header structs (and the pixel rows) from whatever the members hold. -/
theorem c7_precondition_check_asymmetry :
    (∀ (st : EditorState) (blue green red : Nat), st.fileWasRead = false →
      drawCross st blue green red = (st, some BMPError.fileNotRead)) ∧
    (∀ st : EditorState, st.fileWasRead = false →
      (save st).take 54 =
        serializeHeader st.file_header ++ serializeInfoBlock st.info_block) := by
  constructor
  · intro st blue green red hflag
    unfold drawCross
    rw [if_pos (by rw [hflag]; simp)]
  · intro st _
    exact save_take_54 st

/-- Witness for C7: the freshly constructed editor refuses `drawCross`
but `save` happily writes 54 bytes. -/
theorem c7_precondition_check_asymmetry_witness :
    initState.fileWasRead = false ∧
    drawCross initState 0 165 255 = (initState, some BMPError.fileNotRead) ∧
    (save initState).take 54 =
      serializeHeader initState.file_header ++
      serializeInfoBlock initState.info_block :=
  ⟨rfl, c7_precondition_check_asymmetry.1 initState 0 165 255 rfl,
    c7_precondition_check_asymmetry.2 initState rfl⟩

/-- Counterexample to C7 as stated: calling `save` before any decode
does not fail and does not "perform no work" — on the freshly
constructed (zeroed) editor it writes 54 bytes of output. -/
theorem c7_counterexample :
    initState.fileWasRead = false ∧
    save initState = List.replicate 54 0 ∧
    (save initState).length = 54 := by decide

/-! ## Claim C8 -/

/-- C8 (corrected): once both fixed-size headers could be read (at least
54 input bytes), decode fails with the not-a-BMP error exactly when the
first two bytes are not 0x42 0x4D.  (Inputs shorter than 54 bytes never
reach the magic validation: they fail with the earlier read-failure
error, whatever their first two bytes.) -/
theorem c8_magic_validation (st : EditorState) (input : List Nat)
    (hlen : 54 ≤ input.length) (hbytes : ∀ b ∈ input, b < 256) :
    (read st input).2 = some BMPError.notBmpFile ↔
      ¬ (input.getD 0 0 = 66 ∧ input.getD 1 0 = 77) := by
  obtain ⟨-, -, h3⟩ := read_headers_spec st input hlen
  have hty : (hdrOf input).type_of_file =
      input.getD 0 0 + 256 * input.getD 1 0 := by
    show readU16 (input.take 14) 0 = _
    unfold readU16
    rw [getD_take, getD_take, if_pos (by norm_num), if_pos (by norm_num)]
  have hb0 : input.getD 0 0 < 256 :=
    getD_lt_of_forall_lt _ _ _ (by norm_num) hbytes
  have hb1 : input.getD 1 0 < 256 :=
    getD_lt_of_forall_lt _ _ _ (by norm_num) hbytes
  rw [h3]
  by_cases hm : (hdrOf input).type_of_file ≠ 19778
  · rw [if_pos hm]
    constructor
    · intro _ hcon
      exact hm (by omega)
    · intro _
      rfl
  · rw [if_neg hm]
    push_neg at hm
    constructor
    · intro hcon
      by_cases hd : (infoOf input).color_depth_in_bits ≠ 24
      · rw [if_pos hd] at hcon
        exact absurd hcon (by simp)
      · rw [if_neg hd] at hcon
        exact absurd hcon (by simp)
    · intro hcon
      exact absurd (show input.getD 0 0 = 66 ∧ input.getD 1 0 = 77 from
        by omega) hcon

/-- Witness for C8's corrected statement: on `exBadMagic` (first two
bytes 0, 0) the equivalence yields the not-a-BMP error. -/
theorem c8_magic_validation_witness :
    (54 ≤ exBadMagic.length ∧ ¬ (exBadMagic.getD 0 0 = 66 ∧
      exBadMagic.getD 1 0 = 77)) ∧
    (read initState exBadMagic).2 = some BMPError.notBmpFile :=
  ⟨⟨by decide, by decide⟩,
    (c8_magic_validation initState exBadMagic (by decide) (by decide)).mpr
      (by decide)⟩

/-- Counterexample to C8 as stated: the 3-byte input `[0, 0, 0]` has
first two bytes different from "BM", yet decode fails with the
read-failure error (thrown while reading the 14-byte header), not with
`NotABmpFile`. -/
theorem c8_counterexample :
    ([0, 0, 0] : List Nat).getD 0 0 ≠ 66 ∧
    (read initState [0, 0, 0]).2 = some BMPError.readFailure ∧
    (read initState [0, 0, 0]).2 ≠ some BMPError.notBmpFile := by decide

/-! ## Claim C4 -/

/-- C4 (confirmed): the pixel triple read as the `x`-th pixel of the
`d`-th disk row is stored at canonical grid row `height - 1 - d`,
column `x`, packed with blue in bits 16-23, green in bits 8-15 and red
in bits 0-7 (the value `pixAt input p` for the triple at file offset
`p = offset + d * stride + 3 * x`). -/
theorem c4_orientation (input : List Nat)
    (hlen : 54 ≤ input.length)
    (hmagic : (hdrOf input).type_of_file = 19778)
    (hdepth : (infoOf input).color_depth_in_bits = 24)
    (hwb : (infoOf input).width < 1073741824)
    (hpix : (hdrOf input).offset_to_pixel_data +
      (infoOf input).height * decodeRowSize (infoOf input).width 3 ≤
      input.length) :
    (read initState input).2 = none ∧
    ∀ d x, d < (infoOf input).height → x < (infoOf input).width →
      ((read initState input).1.pixels.getD
          ((infoOf input).height - 1 - d) []).getD x 0 =
        pixAt input ((hdrOf input).offset_to_pixel_data +
          d * decodeRowSize (infoOf input).width 3 + 3 * x) := by
  obtain ⟨h1, -, -, -, -, -, h7⟩ := read_spec2 initState input hlen hmagic
    hdepth hpix (wfBMP_rs_ge _ hwb) rfl
  refine ⟨h1, fun d x hd hx => ?_⟩
  rw [h7 ((infoOf input).height - 1 - d) x (by omega) hx,
    show (infoOf input).height - 1 - ((infoOf input).height - 1 - d) = d
      from by omega]

/-- Witness for C4 on the 2-by-2 image: the canonical grid's row 0 holds
the packed colours of the topmost (last-stored) disk row, row 1 those of
the first-stored disk row. -/
theorem c4_orientation_witness :
    (54 ≤ ex2x2.length ∧ (infoOf ex2x2).height = 2 ∧
      (infoOf ex2x2).width = 2) ∧
    ((read initState ex2x2).2 = none ∧
      ∀ d x, d < (infoOf ex2x2).height → x < (infoOf ex2x2).width →
        ((read initState ex2x2).1.pixels.getD
            ((infoOf ex2x2).height - 1 - d) []).getD x 0 =
          pixAt ex2x2 ((hdrOf ex2x2).offset_to_pixel_data +
            d * decodeRowSize (infoOf ex2x2).width 3 + 3 * x)) ∧
    (read initState ex2x2).1.pixels =
      [[460809, 658188], [66051, 263430]] :=
  ⟨⟨by decide, by decide, by decide⟩,
    c4_orientation ex2x2 (by decide) (by decide) (by decide) (by decide)
      (by decide),
    by decide⟩

/-! ## Claim C10 -/

/-- C10 (confirmed): on a loaded state with consistent dimensions,
`drawCross blue green red` succeeds, leaves both headers, the flag and
all grid dimensions unchanged, and sets exactly the cells `(i, i)` and
`(i, width - 1 - i)` for `i < min height width` to
`blue <<< 16 ||| green <<< 8 ||| red`, leaving every other cell
unchanged. -/
theorem c10_drawCross_effect (st : EditorState) (blue green red : Nat)
    (hblue : blue < 256) (hgreen : green < 256) (hred : red < 256)
    (hflag : st.fileWasRead = true)
    (hlen : st.pixels.length = st.info_block.height)
    (hrows : ∀ r, r < st.info_block.height →
      (st.pixels.getD r []).length = st.info_block.width) :
    (drawCross st blue green red).2 = none ∧
    (drawCross st blue green red).1.file_header = st.file_header ∧
    (drawCross st blue green red).1.info_block = st.info_block ∧
    (drawCross st blue green red).1.fileWasRead = st.fileWasRead ∧
    (drawCross st blue green red).1.pixels.length = st.pixels.length ∧
    (∀ r, r < st.info_block.height →
      ((drawCross st blue green red).1.pixels.getD r []).length =
        st.info_block.width) ∧
    (∀ r c, r < st.info_block.height → c < st.info_block.width →
      ((drawCross st blue green red).1.pixels.getD r []).getD c 0 =
        if r < min st.info_block.height st.info_block.width ∧
            (c = r ∨ c = st.info_block.width - 1 - r) then
          blue <<< 16 ||| green <<< 8 ||| red
        else (st.pixels.getD r []).getD c 0) :=
  drawCross_spec st blue green red hflag hlen hrows

/-- Witness for C10 on the loaded 2-by-2 state with the orange colour
used by `main`: every cell lies on one of the two diagonals, so the
whole grid becomes `0x00A5FF = 42495`. -/
theorem c10_drawCross_effect_witness :
    (exState2x2.fileWasRead = true ∧
      exState2x2.pixels.length = exState2x2.info_block.height) ∧
    (drawCross exState2x2 0 165 255).2 = none ∧
    (∀ r c, r < exState2x2.info_block.height →
      c < exState2x2.info_block.width →
      ((drawCross exState2x2 0 165 255).1.pixels.getD r []).getD c 0 =
        if r < min exState2x2.info_block.height
            exState2x2.info_block.width ∧
            (c = r ∨ c = exState2x2.info_block.width - 1 - r) then
          0 <<< 16 ||| 165 <<< 8 ||| 255
        else (exState2x2.pixels.getD r []).getD c 0) ∧
    (drawCross exState2x2 0 165 255).1.pixels =
      [[42495, 42495], [42495, 42495]] :=
  ⟨⟨rfl, rfl⟩,
    (c10_drawCross_effect exState2x2 0 165 255 (by norm_num) (by norm_num)
      (by norm_num) rfl rfl (by decide)).1,
    (c10_drawCross_effect exState2x2 0 165 255 (by norm_num) (by norm_num)
      (by norm_num) rfl rfl (by decide)).2.2.2.2.2.2,
    by decide⟩

/-! ## Claim C9 -/

/-- C9 (confirmed): on a 24-bit state whose width avoids the 32-bit
stride overflow, the pixel section `save` writes is exactly
`stride * height` bytes; the block at row offset `d * stride` holds the
blue, green and red bytes of canonical grid row `height - 1 - d` in
that order, and the bytes between `3 * width` and `stride` of each row
block are zero padding. -/
theorem c9_encoder_layout (st : EditorState)
    (hw : st.info_block.width ≤ 178956969)
    (hdepth : st.info_block.color_depth_in_bits = 24) :
    ((save st).drop 54).length = st.info_block.height *
      encodeRowStride st.info_block.width st.info_block.color_depth_in_bits ∧
    (∀ d x, d < st.info_block.height → x < st.info_block.width →
      ((save st).drop 54).getD (d * encodeRowStride st.info_block.width
          st.info_block.color_depth_in_bits + 3 * x) 0 =
        (st.pixels.getD (st.info_block.height - 1 - d) []).getD x 0
          / 65536 % 256 ∧
      ((save st).drop 54).getD (d * encodeRowStride st.info_block.width
          st.info_block.color_depth_in_bits + 3 * x + 1) 0 =
        (st.pixels.getD (st.info_block.height - 1 - d) []).getD x 0
          / 256 % 256 ∧
      ((save st).drop 54).getD (d * encodeRowStride st.info_block.width
          st.info_block.color_depth_in_bits + 3 * x + 2) 0 =
        (st.pixels.getD (st.info_block.height - 1 - d) []).getD x 0
          % 256) ∧
    (∀ d j, d < st.info_block.height → 3 * st.info_block.width ≤ j →
      j < encodeRowStride st.info_block.width
        st.info_block.color_depth_in_bits →
      ((save st).drop 54).getD (d * encodeRowStride st.info_block.width
        st.info_block.color_depth_in_bits + j) 0 = 0) := by
  have hstr : encodeRowStride st.info_block.width
      st.info_block.color_depth_in_bits =
      (3 * st.info_block.width + 3) / 4 * 4 := by
    rw [hdepth]
    exact encodeRowStride_eq _ (by omega)
  have hge : 3 * st.info_block.width ≤ encodeRowStride st.info_block.width
      st.info_block.color_depth_in_bits := by
    rw [hstr]; omega
  have hL : 3 * st.info_block.width + (encodeRowStride st.info_block.width
      st.info_block.color_depth_in_bits - 3 * st.info_block.width) =
      encodeRowStride st.info_block.width
        st.info_block.color_depth_in_bits := by
    omega
  rw [save_drop_54]
  refine ⟨by rw [saveRowsLoop_length, hL], ?_, ?_⟩
  · intro d x hd hx
    refine ⟨?_, ?_, ?_⟩
    · rw [show d * encodeRowStride st.info_block.width
            st.info_block.color_depth_in_bits + 3 * x =
          d * (3 * st.info_block.width + (encodeRowStride
            st.info_block.width st.info_block.color_depth_in_bits -
            3 * st.info_block.width)) + (3 * x) from by rw [hL],
        saveRowsLoop_getD _ _ _ _ d (3 * x) hd (by omega),
        saveRow_getD_pixel _ _ _ _ (by omega),
        show 3 * x / 3 = x from by omega,
        show 3 * x % 3 = 0 from by omega, pixelBytes_eq]
      rfl
    · rw [show d * encodeRowStride st.info_block.width
            st.info_block.color_depth_in_bits + 3 * x + 1 =
          d * (3 * st.info_block.width + (encodeRowStride
            st.info_block.width st.info_block.color_depth_in_bits -
            3 * st.info_block.width)) + (3 * x + 1) from by rw [hL]; omega,
        saveRowsLoop_getD _ _ _ _ d (3 * x + 1) hd (by omega),
        saveRow_getD_pixel _ _ _ _ (by omega),
        show (3 * x + 1) / 3 = x from by omega,
        show (3 * x + 1) % 3 = 1 from by omega, pixelBytes_eq]
      rfl
    · rw [show d * encodeRowStride st.info_block.width
            st.info_block.color_depth_in_bits + 3 * x + 2 =
          d * (3 * st.info_block.width + (encodeRowStride
            st.info_block.width st.info_block.color_depth_in_bits -
            3 * st.info_block.width)) + (3 * x + 2) from by rw [hL]; omega,
        saveRowsLoop_getD _ _ _ _ d (3 * x + 2) hd (by omega),
        saveRow_getD_pixel _ _ _ _ (by omega),
        show (3 * x + 2) / 3 = x from by omega,
        show (3 * x + 2) % 3 = 2 from by omega, pixelBytes_eq]
      rfl
  · intro d j hd hj1 hj2
    rw [show d * encodeRowStride st.info_block.width
          st.info_block.color_depth_in_bits + j =
        d * (3 * st.info_block.width + (encodeRowStride
          st.info_block.width st.info_block.color_depth_in_bits -
          3 * st.info_block.width)) + j from by rw [hL],
      saveRowsLoop_getD _ _ _ _ d j hd (by omega),
      saveRow_getD_pad _ _ _ _ hj1 (by omega)]

/-- Witness for C9 on the loaded 2-by-2 state: stride 8, pixel section
16 bytes. -/
theorem c9_encoder_layout_witness :
    (exState2x2.info_block.width ≤ 178956969 ∧
      exState2x2.info_block.color_depth_in_bits = 24) ∧
    ((save exState2x2).drop 54).length = exState2x2.info_block.height *
      encodeRowStride exState2x2.info_block.width
        exState2x2.info_block.color_depth_in_bits ∧
    (∀ d j, d < exState2x2.info_block.height →
      3 * exState2x2.info_block.width ≤ j →
      j < encodeRowStride exState2x2.info_block.width
        exState2x2.info_block.color_depth_in_bits →
      ((save exState2x2).drop 54).getD
        (d * encodeRowStride exState2x2.info_block.width
          exState2x2.info_block.color_depth_in_bits + j) 0 = 0) ∧
    (save exState2x2).drop 54 =
      [0, 0, 3, 0, 0, 4, 0, 0, 0, 0, 1, 0, 0, 2, 0, 0] := by
  refine ⟨⟨by decide, rfl⟩,
    (c9_encoder_layout exState2x2 (by decide) rfl).1,
    (c9_encoder_layout exState2x2 (by decide) rfl).2.2, by decide⟩

/-! ## Claim C1 -/

/-- C1 (corrected): for every well-formed uncompressed 24-bit BMP whose
width is at most 178956969 (so that the encoder's 32-bit stride
computation does not overflow), decode followed immediately by encode
reproduces the 54 header bytes and the pixel data section byte for
byte. -/
theorem c1_roundtrip_identity (input : List Nat) (hwf : wfBMP input)
    (hw : (infoOf input).width ≤ 178956969) :
    (read initState input).2 = none ∧
    (save (read initState input).1).take 54 = input.take 54 ∧
    (save (read initState input).1).drop 54 =
      (input.drop (hdrOf input).offset_to_pixel_data).take
        ((infoOf input).height * decodeRowSize (infoOf input).width 3) :=
  roundtrip_spec input hwf hw

/-- Witness for C1 on the 2-by-2 image (width 2, not a multiple of 4,
two padding bytes per row). -/
theorem c1_roundtrip_identity_witness :
    wfBMP ex2x2 ∧
    ((read initState ex2x2).2 = none ∧
      (save (read initState ex2x2).1).take 54 = ex2x2.take 54 ∧
      (save (read initState ex2x2).1).drop 54 =
        (ex2x2.drop (hdrOf ex2x2).offset_to_pixel_data).take
          ((infoOf ex2x2).height * decodeRowSize (infoOf ex2x2).width 3)) :=
  ⟨by decide, c1_roundtrip_identity ex2x2 (by decide) (by decide)⟩

/-- Helper facts about the overflow-width example. -/
theorem exOverflow_facts :
    exOverflow.length = 54 + 536870912 ∧
    hdrOf exOverflow = hdrOf exOverflowHeader ∧
    infoOf exOverflow = infoOf exOverflowHeader := by
  refine ⟨?_, ?_, ?_⟩
  · show (exOverflowHeader ++ List.replicate 536870912 0).length = _
    rw [List.length_append, List.length_replicate,
      show exOverflowHeader.length = 54 from by decide]
  · unfold hdrOf exOverflow
    rw [List.take_append_of_le_length (by decide)]
  · unfold infoOf exOverflow
    rw [List.drop_append_of_le_length (by decide),
      List.take_append_of_le_length (by decide)]

theorem exOverflow_wf : wfBMP exOverflow := by
  obtain ⟨hlen, hhdr, hinfo⟩ := exOverflow_facts
  have hoff : (hdrOf exOverflow).offset_to_pixel_data = 54 := by
    rw [hhdr]; decide
  have hwv : (infoOf exOverflow).width = 178956970 := by
    rw [hinfo]; decide
  have hhv : (infoOf exOverflow).height = 1 := by
    rw [hinfo]; decide
  have hrs : decodeRowSize 178956970 3 = 536870912 := by
    rw [decodeRowSize_eq _ (by norm_num)]
  refine ⟨by omega, ?_, by rw [hhdr]; decide, by rw [hinfo]; decide,
    by rw [hinfo]; decide, by rw [hinfo]; decide, by rw [hinfo]; decide,
    ?_, ?_⟩
  · intro b hb
    rcases List.mem_append.mp hb with h | h
    · exact (by decide : ∀ x ∈ exOverflowHeader, x < 256) b h
    · rw [List.eq_of_mem_replicate h]; norm_num
  · rw [hoff, hwv, hhv, hrs, hlen]
  · intro d hd j hj1 hj2
    rw [hwv, hrs] at hj1
    rw [hhv] at hd
    rw [show (hdrOf exOverflow).offset_to_pixel_data +
        d * decodeRowSize (infoOf exOverflow).width 3 + j =
        54 + (d * 536870912 + j) from by rw [hoff, hwv, hrs]; omega]
    show (exOverflowHeader ++ List.replicate 536870912 0).getD _ 0 = 0
    rw [List.getD_append_right _ _ _ _
        (by rw [show exOverflowHeader.length = 54 from by decide]; omega),
      getD_replicate]
    split_ifs <;> rfl

/-- Counterexample to C9 as stated: decoding the well-formed
width-178956970 image and re-encoding, the encoder's 32-bit stride
computation yields stride 0, yet the written pixel section is 536870910
bytes — not stride * height = 0 bytes as the claim requires. -/
theorem c9_counterexample :
    (read initState exOverflow).2 = none ∧
    (read initState exOverflow).1.info_block.width = 178956970 ∧
    (read initState exOverflow).1.info_block.height = 1 ∧
    encodeRowStride 178956970 24 = 0 ∧
    ((save (read initState exOverflow).1).drop 54).length ≠
      (read initState exOverflow).1.info_block.height *
        encodeRowStride (read initState exOverflow).1.info_block.width
          (read initState exOverflow).1.info_block.color_depth_in_bits := by
  obtain ⟨hlen, hhdr, hinfo⟩ := exOverflow_facts
  have hoff : (hdrOf exOverflow).offset_to_pixel_data = 54 := by
    rw [hhdr]; decide
  have hwv : (infoOf exOverflow).width = 178956970 := by
    rw [hinfo]; decide
  have hhv : (infoOf exOverflow).height = 1 := by
    rw [hinfo]; decide
  have hdv : (infoOf exOverflow).color_depth_in_bits = 24 := by
    rw [hinfo]; decide
  have hrs : decodeRowSize 178956970 3 = 536870912 := by
    rw [decodeRowSize_eq _ (by norm_num)]
  have henc : encodeRowStride 178956970 24 = 0 := by
    unfold encodeRowStride
    norm_num
  obtain ⟨hr1, -, hr3, -, -, -, -⟩ := read_spec2 initState exOverflow
    (by omega) (by rw [hhdr]; decide) hdv
    (by rw [hoff, hwv, hhv, hrs, hlen])
    (by rw [hwv, hrs]; norm_num) rfl
  refine ⟨hr1, by rw [hr3, hwv], by rw [hr3, hhv], henc, ?_⟩
  rw [save_drop_54, hr3, saveRowsLoop_length, hwv, hdv, henc, hhv]
  norm_num

/-- Counterexample to C1 as stated: `exOverflow` is a well-formed
24-bit BMP of width 178956970 and height 1 whose pixel section is
536870912 bytes (536870910 pixel bytes, 2 zero padding bytes).  Decode
succeeds, but on re-encode the 32-bit stride computation overflows to
stride 0, the padding is dropped, and the written pixel section
(536870910 bytes) is not byte-identical to the input's. -/
theorem c1_counterexample :
    wfBMP exOverflow ∧
    (read initState exOverflow).2 = none ∧
    (save (read initState exOverflow).1).drop 54 ≠
      (exOverflow.drop (hdrOf exOverflow).offset_to_pixel_data).take
        ((infoOf exOverflow).height * decodeRowSize (infoOf exOverflow).width 3) := by
  obtain ⟨hlen, hhdr, hinfo⟩ := exOverflow_facts
  have hoff : (hdrOf exOverflow).offset_to_pixel_data = 54 := by
    rw [hhdr]; decide
  have hwv : (infoOf exOverflow).width = 178956970 := by
    rw [hinfo]; decide
  have hhv : (infoOf exOverflow).height = 1 := by
    rw [hinfo]; decide
  have hdv : (infoOf exOverflow).color_depth_in_bits = 24 := by
    rw [hinfo]; decide
  have hrs : decodeRowSize 178956970 3 = 536870912 := by
    rw [decodeRowSize_eq _ (by norm_num)]
  have henc : encodeRowStride 178956970 24 = 0 := by
    unfold encodeRowStride
    norm_num
  obtain ⟨hr1, hr2, hr3, -, -, -, -⟩ := read_spec2 initState exOverflow
    (by omega) (by rw [hhdr]; decide) hdv
    (by rw [hoff, hwv, hhv, hrs, hlen])
    (by rw [hwv, hrs]; norm_num) rfl
  refine ⟨exOverflow_wf, hr1, ?_⟩
  intro heq
  have hlhs : ((save (read initState exOverflow).1).drop 54).length =
      536870910 := by
    rw [save_drop_54, hr3, saveRowsLoop_length, hwv, hdv, henc, hhv]
  have hrhs : ((exOverflow.drop
      (hdrOf exOverflow).offset_to_pixel_data).take
      ((infoOf exOverflow).height *
        decodeRowSize (infoOf exOverflow).width 3)).length = 536870912 := by
    rw [List.length_take, List.length_drop, hoff, hhv, hwv, hrs, hlen]
    omega
  rw [heq] at hlhs
  omega

end BMPEditor
